import Mathlib

/-!
Verification development for the MockWebSocketsServer test double
(src/masq_lib/src/test_utils/mock_websockets_server.rs).

The Rust sources are shallowly embedded below.  Pure control flow becomes
Lean functions; machine state that the worker thread mutates (the response
queue, the request log, the signal-sender Cell) is threaded explicitly.
Panics of the Rust code are modelled as `Except.error` values or explicit
exit reasons.  The external codec collaborator (UiTrafficConverter and the
message structs of masq_lib, which are not part of the sources under
verification) is modelled abstractly as a parameter, following the
description in the spec.
-/

namespace MockWS

/-- Embeds Rust `str::contains` at the level of character lists:
`listInfix pat l` is true when `pat` occurs as a contiguous infix of `l`. -/
def listInfix (pat : List Char) : List Char → Bool
  | [] => pat.isEmpty
  | c :: rest => pat.isPrefixOf (c :: rest) || listInfix pat rest

/-- Embeds Rust `String::contains` (substring search). -/
def strContains (s pat : String) : Bool := listInfix pat.data s.data

/-- Embeds Rust `String::starts_with`. -/
def strStartsWith (s pat : String) : Bool := pat.data.isPrefixOf s.data

/-- Modelled from the spec: the `path` field of the decoded protocol
envelope (`MessagePath` of ui_gateway, which is not among the sources):
`Conversation(context_id)` or `FireAndForget`. -/
inductive MessagePath where
  | conversation (contextId : Nat)
  | fireAndForget
  deriving DecidableEq

/-- Modelled from the spec: the decoded protocol envelope (`MessageBody`
of ui_gateway, not among the sources).  The spec names the fields the mock
server actually consumes: `opcode` and `path`. -/
structure MessageBody where
  opcode : String
  path : MessagePath
  deriving DecidableEq

/-- Modelled from the spec: the `UiBroadcastTrigger` control message
(messages.rs, not among the sources): optional batch size and optional
signal position. -/
structure UiBroadcastTrigger where
  number_of_broadcasts_in_one_batch : Option Nat
  position_to_send_the_signal_opt : Option Nat
  deriving DecidableEq

/-- The frames of the websocket crate's `OwnedMessage` used by the mock
server.  `Close(None)` is the only close payload the server ever produces,
so the payload is omitted.  Byte payloads are lists of byte values. -/
inductive OwnedMessage where
  | text (s : String)
  | binary (bytes : List Nat)
  | close
  | ping (bytes : List Nat)
  | pong (bytes : List Nat)
  deriving DecidableEq

/-- Embeds `MockWebSocketsServer::queue_owned_message` (line 65): pushes a
pre-built frame onto the back of the response queue. -/
def queue_owned_message (responses : List OwnedMessage) (msg : OwnedMessage) :
    List OwnedMessage :=
  responses ++ [msg]

/-- Result of one call to `handle_conversational_incoming_message`:
the response queue afterwards, the frames sent to the client during the
call, and the u16 return value (1 orders the main loop to break). -/
structure ConvOutcome where
  queue : List OwnedMessage
  sent : List OwnedMessage
  ret : Nat
  deriving DecidableEq

/-- Embeds the `format!` template at lines 282-285: the synthesized error
envelope returned when a conversational request pulls a queued message that
is protocol-shaped but not conversational. -/
def fireAndForgetComplaint (opcode : String) (contextId : Nat) : String :=
  "\x7b\"opcode\": \"" ++ opcode ++ "\", \"contextId\": " ++ toString contextId ++
    ", \"error\": \x7b\"code\": 0, \"message\": \"You tried to call up a fire-and-forget message from the queue by sending a conversational request; try adjust the queue or similar\"\x7d\x7d"

/-- Embeds `MockWebSocketsServer::handle_conversational_incoming_message`
(lines 248-312).  The queue is popped from the front (`remove(0)`); an
empty queue answers with the sentinel `Binary(vec![101])`; the literal
texts "disconnect" and "close" are directives; a text containing the
substring quote-contextId-quote is sent verbatim; a text starting with
the opcode-brace prefix is re-inserted at the front and answered with the
synthesized complaint; anything else is sent verbatim. -/
def handle_conversational_incoming_message (opcode : String) (contextId : Nat)
    (queue : List OwnedMessage) : ConvOutcome :=
  match queue with
  | [] => ⟨[], [OwnedMessage.binary [101]], 0⟩
  | front :: rest =>
    match front with
    | OwnedMessage.text outgoing =>
      if outgoing = "disconnect" then ⟨rest, [], 1⟩
      else if outgoing = "close" then ⟨rest, [OwnedMessage.close], 0⟩
      else if strContains outgoing "\"contextId\"" then
        ⟨rest, [OwnedMessage.text outgoing], 0⟩
      else if strStartsWith outgoing "\x7b\"opcode\":" then
        ⟨OwnedMessage.text outgoing :: rest,
         [OwnedMessage.text (fireAndForgetComplaint opcode contextId)], 0⟩
      else ⟨rest, [OwnedMessage.text outgoing], 0⟩
    | om => ⟨rest, [om], 0⟩

/-- The three `panic!` calls of `handle_broadcast_trigger` (lines 334, 337
and 343). -/
inductive BroadcastError where
  | senderWithoutPosition
  | positionWithoutSender
  | malformedTrigger
  deriving DecidableEq

/-- Result of the broadcast-flush walk (lines 345-377): the queue
afterwards, the frames sent, how many times the synchronization signal was
fired, and how many loop iterations were entered (`visited` equals one
plus the last original index whose body ran, or the starting index if the
body never ran). -/
structure WalkResult where
  queue : List OwnedMessage
  sent : List OwnedMessage
  signals : Nat
  visited : Nat
  deriving DecidableEq

/-- Embeds the `for i in 0..starting_lenght` walk of
`handle_broadcast_trigger` (lines 345-377).  `fuel` stands for the number
of remaining iterations of the range, so `fuel = starting_lenght - i` at
every call; the entry point passes `fuel = queue.length` and `i = 0`.
Per iteration: fire the signal when `i` equals the requested position;
inspect the item at live index `i - factor`; if it is a text that decodes
as FireAndForget, `remove(0)` the FRONT of the queue and send it (this is
the code's own behaviour: it removes index 0, not the inspected index),
then break once the batch size is reached, else continue with `factor`
incremented; a decodable non-FireAndForget text breaks the walk; any other
item is walked past without removal.  The two dead branches return the
current state where the Rust code would panic (empty-queue `remove(0)` and
out-of-range indexing), both unreachable from the entry point. -/
def walkAux (dec : String → Option MessageBody) (posOpt : Option Nat)
    (batch : Nat) :
    Nat → Nat → Nat → Nat → List OwnedMessage → List OwnedMessage → Nat →
    WalkResult
  | 0, i, _factor, _alreadySent, queue, sent, signals =>
    ⟨queue, sent, signals, i⟩
  | fuel + 1, i, factor, alreadySent, queue, sent, signals =>
    let signals1 := if posOpt = some i then signals + 1 else signals
    match queue[i - factor]? with
    | some (OwnedMessage.text json) =>
      match dec json with
      | some msg =>
        if msg.path = MessagePath.fireAndForget then
          match queue with
          | [] => ⟨queue, sent, signals1, i + 1⟩
          | front :: rest =>
            if alreadySent + 1 = batch then ⟨rest, sent ++ [front], signals1, i + 1⟩
            else
              walkAux dec posOpt batch fuel (i + 1) (factor + 1)
                (alreadySent + 1) rest (sent ++ [front]) signals1
        else ⟨queue, sent, signals1, i + 1⟩
      | none =>
        walkAux dec posOpt batch fuel (i + 1) factor alreadySent queue sent signals1
    | some _ =>
      walkAux dec posOpt batch fuel (i + 1) factor alreadySent queue sent signals1
    | none => ⟨queue, sent, signals1, i + 1⟩

/-- Outcome of a successful `handle_broadcast_trigger` call.
`senderAfter` is the content of the `signal_sender` Cell after the call;
the source takes the Cell (line 329) and never restores it. -/
structure BroadcastOutcome where
  queue : List OwnedMessage
  sent : List OwnedMessage
  signals : Nat
  visited : Nat
  senderAfter : Bool
  deriving DecidableEq

/-- Embeds `MockWebSocketsServer::handle_broadcast_trigger`
(lines 314-378).  `fmbResult` is the outcome of
`UiBroadcastTrigger::fmb(message_body)` (`none` models `Err`), and
`senderPresent` the content of the `signal_sender` Cell, which the call
takes unconditionally.  The trigger resolution matches lines 328-344,
with the three panics as errors; a resolved trigger runs the walk with
the demanded batch size, defaulting to the queue length. -/
def handle_broadcast_trigger (dec : String → Option MessageBody)
    (fmbResult : Option UiBroadcastTrigger) (senderPresent : Bool)
    (queue : List OwnedMessage) : Except BroadcastError BroadcastOutcome :=
  match fmbResult, senderPresent with
  | some trig, true =>
    match trig.position_to_send_the_signal_opt with
    | some position =>
      let batch :=
        match trig.number_of_broadcasts_in_one_batch with
        | some demanded => demanded
        | none => queue.length
      let w := walkAux dec (some position) batch queue.length 0 0 0 queue [] 0
      Except.ok ⟨w.queue, w.sent, w.signals, w.visited, false⟩
    | none => Except.error BroadcastError.senderWithoutPosition
  | some trig, false =>
    match trig.position_to_send_the_signal_opt with
    | some _ => Except.error BroadcastError.positionWithoutSender
    | none =>
      let batch :=
        match trig.number_of_broadcasts_in_one_batch with
        | some demanded => demanded
        | none => queue.length
      let w := walkAux dec none batch queue.length 0 0 0 queue [] 0
      Except.ok ⟨w.queue, w.sent, w.signals, w.visited, false⟩
  | none, _ => Except.error BroadcastError.malformedTrigger

/-- Modelled from the spec: the external codec collaborator
(UiTrafficConverter and the message structs, not among the sources).
`dec` decodes the text of a frame into a protocol envelope (`none` models
a decode failure); `fmbBroadcastTrigger` extracts the trigger fields from
a decoded body (`UiBroadcastTrigger::fmb`); `unmarshalErrorReply` is the
marshalled `UiUnmarshalError` envelope synthesized for an undecodable
inbound text. -/
structure Codec where
  dec : String → Option MessageBody
  fmbBroadcastTrigger : MessageBody → Option UiBroadcastTrigger
  unmarshalErrorReply : String → String

/-- How the dispatch of one inbound message ends: continue looping, break
out of the loop (the "disconnect" directive, line 154), or die of a panic
raised by the broadcast handler. -/
inductive DispatchStatus where
  | normal
  | breakLoop
  | fatal (e : BroadcastError)
  deriving DecidableEq

/-- Result of dispatching one inbound message in the main loop:
queue and signal-sender Cell afterwards, the frames sent, and the status. -/
structure DispatchResult where
  queue : List OwnedMessage
  senderPresent : Bool
  frames : List OwnedMessage
  status : DispatchStatus
  deriving DecidableEq

/-- Embeds the dispatch of one recorded inbound message inside the main
loop (lines 142-184): a conversational body goes to
`handle_conversational_incoming_message` (a return of 1 breaks the loop);
a FireAndForget body with opcode "broadcastTrigger" goes to
`handle_broadcast_trigger`; any other FireAndForget body is forgotten; an
undecodable inbound (`Err`) is answered by
`handle_unrecognized_owned_message` with the unmarshal-error envelope. -/
def dispatchIncoming (c : Codec) (queue : List OwnedMessage)
    (senderPresent : Bool) (incoming : Except String MessageBody) :
    DispatchResult :=
  match incoming with
  | Except.ok body =>
    match body.path with
    | MessagePath.conversation contextId =>
      let conv := handle_conversational_incoming_message body.opcode contextId queue
      ⟨conv.queue, senderPresent, conv.sent,
        if conv.ret = 1 then DispatchStatus.breakLoop else DispatchStatus.normal⟩
    | MessagePath.fireAndForget =>
      if body.opcode = "broadcastTrigger" then
        match handle_broadcast_trigger c.dec (c.fmbBroadcastTrigger body)
            senderPresent queue with
        | Except.ok out => ⟨out.queue, out.senderAfter, out.sent, DispatchStatus.normal⟩
        | Except.error e => ⟨queue, senderPresent, [], DispatchStatus.fatal e⟩
      else ⟨queue, senderPresent, [], DispatchStatus.normal⟩
  | Except.error raw =>
    ⟨queue, senderPresent, [OwnedMessage.text (c.unmarshalErrorReply raw)],
      DispatchStatus.normal⟩

/-- Decidable equality for `Except`, needed to evaluate concrete runs. -/
instance exceptDecEq {ε α : Type} [DecidableEq ε] [DecidableEq α] :
    DecidableEq (Except ε α) := fun a b =>
  match a, b with
  | Except.ok x, Except.ok y =>
    if h : x = y then isTrue (by subst h; rfl)
    else isFalse (fun hh => h (Except.ok.inj hh))
  | Except.error x, Except.error y =>
    if h : x = y then isTrue (by subst h; rfl)
    else isFalse (fun hh => h (Except.error.inj hh))
  | Except.ok _, Except.error _ => isFalse (fun hh => Except.noConfusion hh)
  | Except.error _, Except.ok _ => isFalse (fun hh => Except.noConfusion hh)

/-- The worker-side state the main loop mutates: the response queue, the
request log, and the signal-sender Cell. -/
structure LoopState where
  queue : List OwnedMessage
  requests : List (Except String MessageBody)
  senderPresent : Bool
  deriving DecidableEq

/-- One iteration's worth of loop input: the outcome of the non-blocking
read (already classified by `handle_incoming_raw`, `none` when no data was
waiting) and the content of the termination channel at the check
(`some kill` when a stop/kill order is pending). -/
structure Tick where
  incoming : Option (Except String MessageBody)
  stopOrder : Option Bool
  deriving DecidableEq

/-- Why a run of the main loop ended: the observed tick list ran out while
the loop would keep going, the "disconnect" directive broke it, a stop or
kill order was consumed, or the worker panicked. -/
inductive ExitReason where
  | ranOut
  | disconnect
  | stopped (kill : Bool)
  | panicked (e : BroadcastError)
  deriving DecidableEq

/-- Result of one main-loop iteration: state afterwards, frames sent
during the iteration, and `some reason` when the iteration ends the loop. -/
structure IterResult where
  state : LoopState
  frames : List OwnedMessage
  exit : Option ExitReason
  deriving DecidableEq

/-- Embeds the termination check at the bottom of each loop iteration
(lines 186-197): a pending non-kill order sends `Close(None)` and breaks;
a kill order breaks silently; no order continues. -/
def terminationCheck (stopOrder : Option Bool) (st : LoopState)
    (frames : List OwnedMessage) : IterResult :=
  match stopOrder with
  | some kill =>
    if kill then ⟨st, frames, some (ExitReason.stopped true)⟩
    else ⟨st, frames ++ [OwnedMessage.close], some (ExitReason.stopped false)⟩
  | none => ⟨st, frames, none⟩

/-- Embeds one iteration of the main loop (lines 132-204): the inbound
message, when present, is first recorded in the request log and
dispatched; only afterwards is the termination channel checked. -/
def loopIteration (c : Codec) (st : LoopState) (t : Tick) : IterResult :=
  match t.incoming with
  | none => terminationCheck t.stopOrder st []
  | some incoming =>
    let d := dispatchIncoming c st.queue st.senderPresent incoming
    let st2 : LoopState := ⟨d.queue, st.requests ++ [incoming], d.senderPresent⟩
    match d.status with
    | DispatchStatus.breakLoop => ⟨st2, d.frames, some ExitReason.disconnect⟩
    | DispatchStatus.fatal e => ⟨st2, d.frames, some (ExitReason.panicked e)⟩
    | DispatchStatus.normal => terminationCheck t.stopOrder st2 d.frames

/-- Result of running the main loop over a finite list of ticks. -/
structure RunResult where
  state : LoopState
  sent : List OwnedMessage
  exit : ExitReason
  deriving DecidableEq

/-- Runs the main loop (lines 132-204) over a finite list of observed
ticks, stopping early when an iteration exits. -/
def runLoop (c : Codec) : LoopState → List Tick → RunResult
  | st, [] => ⟨st, [], ExitReason.ranOut⟩
  | st, t :: rest =>
    let r := loopIteration c st t
    match r.exit with
    | some e => ⟨r.state, r.frames, e⟩
    | none =>
      let tail := runLoop c r.state rest
      ⟨tail.state, r.frames ++ tail.sent, tail.exit⟩

/-- The stop handle as `send_terminate_order` sees it: the content of the
`looping_rx` channel (`some ()` when the worker signalled that it entered
the loop) and the shared request log. -/
structure MockWebSocketsServerStopHandle where
  loopingSignal : Option Unit
  requests : List (Except String MessageBody)
  deriving DecidableEq

/-- What `send_terminate_order` did: whether it joined the worker thread,
which order (if any) it put on the termination channel, and the request
log it returned. -/
structure TerminateOutcome where
  joined : Bool
  orderSent : Option Bool
  requests : List (Except String MessageBody)
  deriving DecidableEq

/-- Embeds `MockWebSocketsServerStopHandle::send_terminate_order`
(lines 420-454): when the looping signal was received, forward the order,
join, and return the log (a poisoned guard still yields its data); when it
was never received, do not join and return an empty log. -/
def send_terminate_order (h : MockWebSocketsServerStopHandle) (kill : Bool) :
    TerminateOutcome :=
  match h.loopingSignal with
  | some _ => ⟨true, some kill, h.requests⟩
  | none => ⟨false, none, []⟩

/-- Embeds `MockWebSocketsServerStopHandle::stop` (line 410). -/
def MockWebSocketsServerStopHandle.stop (h : MockWebSocketsServerStopHandle) :
    TerminateOutcome :=
  send_terminate_order h false

/-- Embeds `MockWebSocketsServerStopHandle::kill` (line 414); the extra
150ms settling sleep has no effect on the returned data. -/
def MockWebSocketsServerStopHandle.kill (h : MockWebSocketsServerStopHandle) :
    TerminateOutcome :=
  send_terminate_order h true

/-- A concrete FireAndForget protocol body, used by concrete instances. -/
def fafBody : MessageBody := ⟨"faf", MessagePath.fireAndForget⟩

/-- A concrete decoder recognising exactly the text "faf" as a
FireAndForget envelope, used by concrete instances. -/
def decFaf : String → Option MessageBody :=
  fun s => if s = "faf" then some fafBody else none

/-- A concrete codec for concrete instances. -/
def trivialCodec : Codec := ⟨decFaf, fun _ => none, fun raw => raw⟩

/-- A concrete conversational protocol body, used by concrete instances. -/
def convBody1 : MessageBody := ⟨"checkPassword", MessagePath.conversation 1⟩

/-- C1 counterexample: the claim quantifies over every sequence of queued
text frames, but queueing the single text frame "close" and sending one
conversational request answers with a protocol Close frame, not with the
queued text; the run sends only Close frames (one for the directive, one
for the graceful stop), so the first request is not answered with the
first queued response. -/
theorem c1_counterexample :
    (runLoop trivialCodec ⟨[OwnedMessage.text "close"], [], false⟩
        [⟨some (Except.ok convBody1), none⟩, ⟨none, some false⟩]).sent
      = [OwnedMessage.close, OwnedMessage.close]
    ∧ OwnedMessage.text "close" ∉
        (runLoop trivialCodec ⟨[OwnedMessage.text "close"], [], false⟩
          [⟨some (Except.ok convBody1), none⟩, ⟨none, some false⟩]).sent := by
  decide

/-- C2: code bug, evaluated at the failing input.  Queue
`[Binary([0]), Text "faf"]` where "faf" decodes as a FireAndForget
envelope, trigger with no batch size and no signal position.  The walk
skips the binary at original index 0, and at original index 1 inspects the
live item `queue[1 - 0]`, the FireAndForget text — yet `remove(0)` removes
and sends the front Binary frame, leaving the inspected FireAndForget text
in the queue.  The claim (inspected item is itself removed and sent) is
the code's own documented intent (its comments say it filters broadcasts
only and removes each message it sends); the code sends the binary. -/
theorem c2_front_removed_not_inspected :
    handle_broadcast_trigger decFaf (some ⟨none, none⟩) false
        [OwnedMessage.binary [0], OwnedMessage.text "faf"]
      = Except.ok ⟨[OwnedMessage.text "faf"], [OwnedMessage.binary [0]], 0, 2, false⟩
    ∧ decFaf "faf" = some fafBody
    ∧ fafBody.path = MessagePath.fireAndForget := by
  decide

/-- C3 counterexample: a trigger requesting a signal at position 0, with a
channel registered, against an empty queue: the walk body never runs and
the signal fires zero times, not exactly once — so "regardless of the
queue's contents" fails. -/
theorem c3_counterexample :
    handle_broadcast_trigger decFaf (some ⟨none, some 0⟩) true []
      = Except.ok ⟨[], [], 0, 0, false⟩ := by
  decide

/-- C4 counterexample: with the queued "disconnect" directive, a
conversational request arriving in the same tick as a pending stop
(non-kill) order makes the worker exit through the disconnect break, and
no Close frame is ever sent even though stop was ordered. -/
theorem c4_counterexample :
    (runLoop trivialCodec ⟨[OwnedMessage.text "disconnect"], [], false⟩
        [⟨some (Except.ok convBody1), some false⟩]).exit = ExitReason.disconnect
    ∧ OwnedMessage.close ∉
        (runLoop trivialCodec ⟨[OwnedMessage.text "disconnect"], [], false⟩
          [⟨some (Except.ok convBody1), some false⟩]).sent := by
  decide

/-- C5: calling stop() or kill() when the handshake-complete signal was
never received joins nothing, sends no order, and returns an empty request
log. -/
theorem c5_no_join_before_handshake (h : MockWebSocketsServerStopHandle)
    (hnever : h.loopingSignal = none) :
    h.stop = ⟨false, none, []⟩ ∧ h.kill = ⟨false, none, []⟩ := by
  constructor <;>
    simp [MockWebSocketsServerStopHandle.stop, MockWebSocketsServerStopHandle.kill,
      send_terminate_order, hnever]

/-- C5 witness: a handle whose looping signal never arrived (even with a
nonempty shared log, which is unreachable in that state anyway) returns
the empty log without joining. -/
theorem c5_no_join_before_handshake_witness :
    (MockWebSocketsServerStopHandle.mk none [Except.error "junk"]).stop
        = ⟨false, none, []⟩
    ∧ (MockWebSocketsServerStopHandle.mk none [Except.error "junk"]).kill
        = ⟨false, none, []⟩ :=
  c5_no_join_before_handshake ⟨none, [Except.error "junk"]⟩ rfl

/-- C6: a conversational request against an empty queue is answered with
exactly the sentinel binary frame holding the single reserved byte 101,
and never with a text (protocol-shaped) frame. -/
theorem c6_empty_queue_sentinel (opcode : String) (contextId : Nat) :
    handle_conversational_incoming_message opcode contextId []
      = ⟨[], [OwnedMessage.binary [101]], 0⟩
    ∧ ∀ s, OwnedMessage.text s ∉
        (handle_conversational_incoming_message opcode contextId []).sent := by
  refine ⟨rfl, ?_⟩
  intro s
  simp [handle_conversational_incoming_message]

/-- C8: a non-text frame enqueued via queue_owned_message and popped by a
conversational request is delivered verbatim (the very same frame value),
bypassing the decode/classify pipeline (which the handler never invokes on
queued frames). -/
theorem c8_nontext_verbatim (opcode : String) (contextId : Nat)
    (om : OwnedMessage) (rest : List OwnedMessage)
    (h : ∀ s, om ≠ OwnedMessage.text s) :
    handle_conversational_incoming_message opcode contextId
        (queue_owned_message [] om ++ rest)
      = ⟨rest, [om], 0⟩ := by
  cases om with
  | text s => exact absurd rfl (h s)
  | binary b => rfl
  | close => rfl
  | ping b => rfl
  | pong b => rfl

/-- C8 witness: a binary frame is delivered bit-for-bit. -/
theorem c8_nontext_verbatim_witness :
    handle_conversational_incoming_message "descriptor" 0
        (queue_owned_message [] (OwnedMessage.binary [1, 2, 3]) ++ [])
      = ⟨[], [OwnedMessage.binary [1, 2, 3]], 0⟩ :=
  c8_nontext_verbatim "descriptor" 0 (OwnedMessage.binary [1, 2, 3]) []
    (fun _ h => OwnedMessage.noConfusion h)

/-- C10: every successful broadcast-trigger processing leaves the
signal-sender Cell empty (the take is never restored), and processing any
trigger that requests a signal position while the Cell is empty aborts
with the positionWithoutSender panic — so every subsequent
signal-requesting trigger of the run dies, even though a channel was
registered at configuration time. -/
theorem c10_sender_consumed (dec dec2 : String → Option MessageBody)
    (fmbResult : Option UiBroadcastTrigger) (sp : Bool)
    (queue queue2 : List OwnedMessage) (out : BroadcastOutcome)
    (batchOpt : Option Nat) (p : Nat)
    (h : handle_broadcast_trigger dec fmbResult sp queue = Except.ok out) :
    out.senderAfter = false
    ∧ handle_broadcast_trigger dec2 (some ⟨batchOpt, some p⟩) false queue2
        = Except.error BroadcastError.positionWithoutSender := by
  refine ⟨?_, rfl⟩
  cases fmbResult with
  | none => simp [handle_broadcast_trigger] at h
  | some trig =>
    cases htp : trig.position_to_send_the_signal_opt with
    | some position =>
      cases sp with
      | true =>
        simp [handle_broadcast_trigger, htp] at h
        rw [← h]
      | false => simp [handle_broadcast_trigger, htp] at h
    | none =>
      cases sp with
      | true => simp [handle_broadcast_trigger, htp] at h
      | false =>
        simp [handle_broadcast_trigger, htp] at h
        rw [← h]

/-- C10 witness: the outcome of a concrete successful trigger has an empty
Cell, and a follow-up trigger requesting position 5 panics. -/
theorem c10_sender_consumed_witness :
    (⟨[], [], 0, 0, false⟩ : BroadcastOutcome).senderAfter = false
    ∧ handle_broadcast_trigger decFaf (some ⟨none, some 5⟩) false []
        = Except.error BroadcastError.positionWithoutSender :=
  c10_sender_consumed decFaf decFaf (some ⟨none, some 0⟩) true [] []
    ⟨[], [], 0, 0, false⟩ none 5 (by decide)

/-- C7: within a single loop iteration, an inbound message arriving in the
same tick as a pending stop/kill order is still recorded in the request
log, its dispatch replies are sent (they form a prefix of the iteration's
frames, before any termination Close), and only then does the iteration
exit. -/
theorem c7_message_before_termination (c : Codec) (st : LoopState)
    (incoming : Except String MessageBody) (kill : Bool) :
    (loopIteration c st ⟨some incoming, some kill⟩).state.requests
      = st.requests ++ [incoming]
    ∧ (dispatchIncoming c st.queue st.senderPresent incoming).frames
        <+: (loopIteration c st ⟨some incoming, some kill⟩).frames
    ∧ (loopIteration c st ⟨some incoming, some kill⟩).exit ≠ none := by
  cases kill <;>
    cases hd : (dispatchIncoming c st.queue st.senderPresent incoming).status <;>
      simp [loopIteration, terminationCheck, hd, List.prefix_append]

/-- If a loop iteration exits because it consumed a stop (non-kill) order,
the last frame it sent is the protocol Close frame. -/
lemma loopIteration_stopFalse_close (c : Codec) (st : LoopState) (t : Tick)
    (h : (loopIteration c st t).exit = some (ExitReason.stopped false)) :
    (loopIteration c st t).frames.getLast? = some OwnedMessage.close := by
  cases t with
  | mk inc stopOrder =>
    cases inc with
    | none =>
      cases stopOrder with
      | none => simp [loopIteration, terminationCheck] at h
      | some kill =>
        cases kill with
        | true => simp [loopIteration, terminationCheck] at h
        | false => simp [loopIteration, terminationCheck, List.getLast?_append_cons]
    | some incoming =>
      cases hd : (dispatchIncoming c st.queue st.senderPresent incoming).status with
      | normal =>
        cases stopOrder with
        | none => simp [loopIteration, terminationCheck, hd] at h
        | some kill =>
          cases kill with
          | true => simp [loopIteration, terminationCheck, hd] at h
          | false => simp [loopIteration, terminationCheck, hd, List.getLast?_append_cons]
      | breakLoop => simp [loopIteration, hd] at h
      | fatal e => simp [loopIteration, hd] at h

/-- If a run of the main loop ends by consuming a stop (non-kill) order,
the last frame the worker sent is the protocol Close frame. -/
lemma runLoop_stopFalse_close (c : Codec) :
    ∀ (ticks : List Tick) (st : LoopState),
      (runLoop c st ticks).exit = ExitReason.stopped false →
      (runLoop c st ticks).sent.getLast? = some OwnedMessage.close := by
  intro ticks
  induction ticks with
  | nil => intro st h; simp [runLoop] at h
  | cons t rest ih =>
    intro st h
    simp only [runLoop] at h ⊢
    cases hr : (loopIteration c st t).exit with
    | some e =>
      rw [hr] at h
      dsimp only at h ⊢
      subst h
      exact loopIteration_stopFalse_close c st t hr
    | none =>
      rw [hr] at h
      dsimp only at h ⊢
      have htail := ih (loopIteration c st t).state h
      have hne : (runLoop c (loopIteration c st t).state rest).sent ≠ [] := by
        intro hnil
        rw [hnil] at htail
        simp at htail
      rw [List.getLast?_append_of_ne_nil _ hne]
      exact htail

/-- A run whose final tick carries a kill order sends exactly the frames
of the same run with no order on that tick: consuming a kill order
contributes no frame to the wire. -/
lemma runLoop_kill_no_frame (c : Codec) :
    ∀ (pre : List Tick) (st : LoopState)
      (inc : Option (Except String MessageBody)),
      (runLoop c st (pre ++ [⟨inc, some true⟩])).sent
        = (runLoop c st (pre ++ [⟨inc, none⟩])).sent := by
  intro pre
  induction pre with
  | nil =>
    intro st inc
    cases inc with
    | none => simp [runLoop, loopIteration, terminationCheck]
    | some incoming =>
      cases hd : (dispatchIncoming c st.queue st.senderPresent incoming).status <;>
        simp [runLoop, loopIteration, terminationCheck, hd]
  | cons t pre ih =>
    intro st inc
    simp only [List.cons_append, runLoop]
    cases hr : (loopIteration c st t).exit with
    | some e => rfl
    | none =>
      dsimp only
      congr 1
      exact ih (loopIteration c st t).state inc

/-- C4 amended: whenever the worker exits by consuming a stop (non-kill)
order, the last frame sent on the run is a protocol Close frame; and a
kill order never contributes a frame at termination (the run's wire output
equals that of the identical run without the order).  The original claim
fails only when the worker already exited through the queued "disconnect"
directive while the stop order was pending (see the counterexample). -/
theorem c4_close_on_stop (c : Codec) (st : LoopState) (ticks pre : List Tick)
    (inc : Option (Except String MessageBody)) :
    ((runLoop c st ticks).exit = ExitReason.stopped false →
      (runLoop c st ticks).sent.getLast? = some OwnedMessage.close)
    ∧ (runLoop c st (pre ++ [⟨inc, some true⟩])).sent
        = (runLoop c st (pre ++ [⟨inc, none⟩])).sent :=
  ⟨runLoop_stopFalse_close c ticks st, runLoop_kill_no_frame c pre st inc⟩

/-- C4 witness: a run with no traffic that consumes a stop order exits via
the stop path and its last sent frame is the Close frame. -/
theorem c4_close_on_stop_witness :
    (runLoop trivialCodec ⟨[], [], false⟩ [⟨none, some false⟩]).exit
        = ExitReason.stopped false
    ∧ (runLoop trivialCodec ⟨[], [], false⟩ [⟨none, some false⟩]).sent.getLast?
        = some OwnedMessage.close :=
  ⟨by decide,
   (c4_close_on_stop trivialCodec ⟨[], [], false⟩ [⟨none, some false⟩] [] none).1
     (by decide)⟩

/-- The walk never reports fewer entered iterations than its starting
index. -/
lemma walkAux_visited_ge (dec : String → Option MessageBody)
    (posOpt : Option Nat) (batch : Nat) :
    ∀ (fuel i factor a : Nat) (queue sent : List OwnedMessage) (signals : Nat),
      i ≤ (walkAux dec posOpt batch fuel i factor a queue sent signals).visited := by
  intro fuel
  induction fuel with
  | zero =>
    intro i factor a queue sent signals
    exact Nat.le_refl i
  | succ fuel ih =>
    intro i factor a queue sent signals
    simp only [walkAux]
    cases hq : queue[i - factor]? with
    | none => dsimp only; exact Nat.le_succ i
    | some m =>
      cases m with
      | text json =>
        dsimp only
        cases hdec : dec json with
        | none => dsimp only; exact Nat.le_of_succ_le (ih (i + 1) factor a queue sent _)
        | some msg =>
          dsimp only
          by_cases hpath : msg.path = MessagePath.fireAndForget
          · rw [if_pos hpath]
            cases queue with
            | nil => exact Nat.le_succ i
            | cons front rest =>
              dsimp only
              by_cases hb : a + 1 = batch
              · rw [if_pos hb]; exact Nat.le_succ i
              · rw [if_neg hb]
                exact Nat.le_of_succ_le (ih (i + 1) (factor + 1) (a + 1) rest _ _)
          · rw [if_neg hpath]; exact Nat.le_succ i
      | binary b => dsimp only; exact Nat.le_of_succ_le (ih (i + 1) factor a queue sent _)
      | close => dsimp only; exact Nat.le_of_succ_le (ih (i + 1) factor a queue sent _)
      | ping b => dsimp only; exact Nat.le_of_succ_le (ih (i + 1) factor a queue sent _)
      | pong b => dsimp only; exact Nat.le_of_succ_le (ih (i + 1) factor a queue sent _)

/-- Signal accounting along the walk: with a requested position p, the
walk adds exactly one signal when p falls among the iteration indices it
enters at or after its starting index, and none otherwise. -/
lemma walkAux_signals_some (dec : String → Option MessageBody) (batch p : Nat) :
    ∀ (fuel i factor a : Nat) (queue sent : List OwnedMessage) (signals : Nat),
      (walkAux dec (some p) batch fuel i factor a queue sent signals).signals
        = signals +
          (if i ≤ p ∧
              p < (walkAux dec (some p) batch fuel i factor a queue sent signals).visited
            then 1 else 0) := by
  intro fuel
  induction fuel with
  | zero =>
    intro i factor a queue sent signals
    have hcond : ¬(i ≤ p ∧ p < i) := by omega
    simp only [walkAux, if_neg hcond]
    omega
  | succ fuel ih =>
    intro i factor a queue sent signals
    simp only [walkAux, Option.some.injEq]
    cases hq : queue[i - factor]? with
    | none =>
      dsimp only
      split_ifs <;> omega
    | some m =>
      have hterm : ∀ q s : List OwnedMessage,
          (WalkResult.mk q s (if p = i then signals + 1 else signals) (i + 1)).signals
            = signals +
              (if i ≤ p ∧
                  p < (WalkResult.mk q s (if p = i then signals + 1 else signals)
                        (i + 1)).visited
                then 1 else 0) := by
        intro q s
        dsimp only
        split_ifs <;> omega
      have hrec : ∀ (factor1 a1 : Nat) (queue1 sent1 : List OwnedMessage),
          (walkAux dec (some p) batch fuel (i + 1) factor1 a1 queue1 sent1
              (if p = i then signals + 1 else signals)).signals
            = signals +
              (if i ≤ p ∧
                  p < (walkAux dec (some p) batch fuel (i + 1) factor1 a1 queue1 sent1
                        (if p = i then signals + 1 else signals)).visited
                then 1 else 0) := by
        intro factor1 a1 queue1 sent1
        by_cases hpi : p = i
        · simp only [if_pos hpi]
          rw [ih (i + 1) factor1 a1 queue1 sent1 (signals + 1)]
          have hv := walkAux_visited_ge dec (some p) batch fuel (i + 1) factor1 a1
            queue1 sent1 (signals + 1)
          split_ifs <;> omega
        · simp only [if_neg hpi]
          rw [ih (i + 1) factor1 a1 queue1 sent1 signals]
          have hv := walkAux_visited_ge dec (some p) batch fuel (i + 1) factor1 a1
            queue1 sent1 signals
          split_ifs <;> omega
      cases m with
      | text json =>
        dsimp only
        cases hdec : dec json with
        | none => dsimp only; exact hrec factor a queue sent
        | some msg =>
          dsimp only
          by_cases hpath : msg.path = MessagePath.fireAndForget
          · rw [if_pos hpath]
            cases queue with
            | nil => exact hterm _ _
            | cons front rest =>
              dsimp only
              by_cases hb : a + 1 = batch
              · rw [if_pos hb]; exact hterm _ _
              · rw [if_neg hb]; exact hrec (factor + 1) (a + 1) rest (sent ++ [front])
          · rw [if_neg hpath]; exact hterm _ _
      | binary b => dsimp only; exact hrec factor a queue sent
      | close => dsimp only; exact hrec factor a queue sent
      | ping b => dsimp only; exact hrec factor a queue sent
      | pong b => dsimp only; exact hrec factor a queue sent

/-- C3 amended: a trigger requesting a signal at position p (with the
channel registered) fires the channel at most once, and exactly once
precisely when the walk enters iteration index p before terminating — not
regardless of batch size and queue contents (an empty queue, a batch
exhausted before p, or an earlier conversational item all suppress the
signal; see the counterexample). -/
theorem c3_signal_at_most_once (dec : String → Option MessageBody)
    (queue : List OwnedMessage) (batchOpt : Option Nat) (p : Nat) :
    ∃ out, handle_broadcast_trigger dec (some ⟨batchOpt, some p⟩) true queue
        = Except.ok out
      ∧ out.signals = (if p < out.visited then 1 else 0)
      ∧ out.signals ≤ 1 := by
  have key : ∀ B : Nat,
      (walkAux dec (some p) B queue.length 0 0 0 queue [] 0).signals
        = (if p < (walkAux dec (some p) B queue.length 0 0 0 queue [] 0).visited
            then 1 else 0) := by
    intro B
    have hs := walkAux_signals_some dec B p queue.length 0 0 0 queue [] 0
    simpa using hs
  cases batchOpt with
  | none =>
    refine ⟨_, rfl, key _, ?_⟩
    dsimp only
    rw [key _]
    split <;> omega
  | some d =>
    refine ⟨_, rfl, key _, ?_⟩
    dsimp only
    rw [key _]
    split <;> omega

/-- With batch size 0 the sent-counter comparison `already_sent == batch`
is checked only after an increment, so it never matches: the walk behaves
exactly as with any unreachably large batch bound. -/
lemma walkAux_batch_zero (dec : String → Option MessageBody)
    (posOpt : Option Nat) (B : Nat) :
    ∀ (fuel i factor a : Nat) (queue sent : List OwnedMessage) (signals : Nat),
      a + fuel < B →
      walkAux dec posOpt 0 fuel i factor a queue sent signals
        = walkAux dec posOpt B fuel i factor a queue sent signals := by
  intro fuel
  induction fuel with
  | zero => intro i factor a queue sent signals _; rfl
  | succ fuel ih =>
    intro i factor a queue sent signals hB
    simp only [walkAux]
    cases hq : queue[i - factor]? with
    | none => rfl
    | some m =>
      cases m with
      | text json =>
        dsimp only
        cases hdec : dec json with
        | none => dsimp only; exact ih (i + 1) factor a queue sent _ (by omega)
        | some msg =>
          dsimp only
          by_cases hpath : msg.path = MessagePath.fireAndForget
          · rw [if_pos hpath, if_pos hpath]
            cases queue with
            | nil => rfl
            | cons front rest =>
              dsimp only
              rw [if_neg (Nat.succ_ne_zero a), if_neg (by omega : ¬a + 1 = B)]
              exact ih (i + 1) (factor + 1) (a + 1) rest (sent ++ [front]) _ (by omega)
          · rw [if_neg hpath, if_neg hpath]
      | binary b => dsimp only; exact ih (i + 1) factor a queue sent _ (by omega)
      | close => dsimp only; exact ih (i + 1) factor a queue sent _ (by omega)
      | ping b => dsimp only; exact ih (i + 1) factor a queue sent _ (by omega)
      | pong b => dsimp only; exact ih (i + 1) factor a queue sent _ (by omega)

/-- Against a queue consisting entirely of texts that decode as
FireAndForget envelopes, the unlimited (batch 0) walk with no signal
position sends the whole queue in order and leaves it empty. -/
lemma walkAux_all_faf (dec : String → Option MessageBody) :
    ∀ (queue : List OwnedMessage) (i a : Nat) (sent : List OwnedMessage)
      (signals : Nat),
      (∀ m ∈ queue, ∃ s, m = OwnedMessage.text s ∧
        ∃ b, dec s = some b ∧ b.path = MessagePath.fireAndForget) →
      walkAux dec none 0 queue.length i i a queue sent signals
        = ⟨[], sent ++ queue, signals, i + queue.length⟩ := by
  intro queue
  induction queue with
  | nil => intro i a sent signals _; simp [walkAux]
  | cons m rest ih =>
    intro i a sent signals hall
    obtain ⟨s, rfl, b, hdec, hpath⟩ := hall m (List.mem_cons_self m rest)
    simp only [List.length_cons]
    simp only [walkAux, Nat.sub_self, List.getElem?_cons_zero, hdec, hpath]
    have h1 : ¬(a + 1 = 0) := Nat.succ_ne_zero a
    have h2 : ¬((none : Option Nat) = some i) := fun h => Option.noConfusion h
    simp only [if_true, if_neg h1, if_neg h2]
    rw [ih (i + 1) (a + 1) (sent ++ [OwnedMessage.text s]) signals
      (fun m hm => hall m (List.mem_cons_of_mem _ hm))]
    simp [List.append_assoc]
    omega

/-- C9: an explicit batch size of 0 never stops the walk after zero sends:
the run is identical to one with an unreachably large batch bound
(queue length + 1), and against a queue of only FireAndForget-decodable
texts it sends every queued frame, leaving the queue empty. -/
theorem c9_zero_batch (dec : String → Option MessageBody)
    (queue : List OwnedMessage) (sp : Bool) (pos : Option Nat) :
    handle_broadcast_trigger dec (some ⟨some 0, pos⟩) sp queue
      = handle_broadcast_trigger dec (some ⟨some (queue.length + 1), pos⟩) sp queue
    ∧ ((∀ m ∈ queue, ∃ s, m = OwnedMessage.text s ∧
          ∃ b, dec s = some b ∧ b.path = MessagePath.fireAndForget) →
        handle_broadcast_trigger dec (some ⟨some 0, none⟩) false queue
          = Except.ok ⟨[], queue, 0, queue.length, false⟩) := by
  constructor
  · cases sp with
    | true =>
      cases pos with
      | none => rfl
      | some p =>
        simp only [handle_broadcast_trigger]
        rw [walkAux_batch_zero dec (some p) (queue.length + 1) queue.length
          0 0 0 queue [] 0 (by omega)]
    | false =>
      cases pos with
      | some p => rfl
      | none =>
        simp only [handle_broadcast_trigger]
        rw [walkAux_batch_zero dec none (queue.length + 1) queue.length
          0 0 0 queue [] 0 (by omega)]
  · intro hall
    simp only [handle_broadcast_trigger]
    rw [walkAux_all_faf dec queue 0 0 [] 0 hall]
    simp

/-- C9 witness: a concrete one-element FireAndForget queue under a batch-0
trigger matches the unlimited run and is flushed entirely. -/
theorem c9_zero_batch_witness :
    handle_broadcast_trigger decFaf (some ⟨some 0, none⟩) false
        [OwnedMessage.text "faf"]
      = handle_broadcast_trigger decFaf (some ⟨some 2, none⟩) false
        [OwnedMessage.text "faf"]
    ∧ handle_broadcast_trigger decFaf (some ⟨some 0, none⟩) false
        [OwnedMessage.text "faf"]
      = Except.ok ⟨[], [OwnedMessage.text "faf"], 0, 1, false⟩ :=
  ⟨(c9_zero_batch decFaf [OwnedMessage.text "faf"] false none).1,
   (c9_zero_batch decFaf [OwnedMessage.text "faf"] false none).2 (by
      intro m hm
      rw [List.mem_singleton] at hm
      subst hm
      exact ⟨"faf", rfl, fafBody, by decide, rfl⟩)⟩

/-- A queued text that contains the conversational marker substring is
sent back verbatim by the conversational handler (it cannot equal the
"disconnect" or "close" directives, which lack the marker). -/
lemma conv_marked (opcode : String) (ctx : Nat) (s : String)
    (rest : List OwnedMessage)
    (hm : strContains s "\"contextId\"" = true) :
    handle_conversational_incoming_message opcode ctx (OwnedMessage.text s :: rest)
      = ⟨rest, [OwnedMessage.text s], 0⟩ := by
  have h1 : s ≠ "disconnect" := by
    rintro rfl
    exact absurd hm (by decide)
  have h2 : s ≠ "close" := by
    rintro rfl
    exact absurd hm (by decide)
  simp [handle_conversational_incoming_message, h1, h2, hm]

/-- Running the loop over marked queued texts and matching conversational
requests, followed by a stop order, answers each request with the
corresponding queued text in FIFO order, drains the queue, logs every
request in arrival order, and exits via the graceful-stop Close. -/
lemma runLoop_fifo_conversational (c : Codec) :
    ∀ (strs : List String) (bodies : List MessageBody)
      (req0 : List (Except String MessageBody)) (sp : Bool),
      strs.length = bodies.length →
      (∀ s ∈ strs, strContains s "\"contextId\"" = true) →
      (∀ b ∈ bodies, ∃ ctx, b.path = MessagePath.conversation ctx) →
      runLoop c ⟨strs.map OwnedMessage.text, req0, sp⟩
          (bodies.map (fun b => Tick.mk (some (Except.ok b)) none)
            ++ [Tick.mk none (some false)])
        = ⟨⟨[], req0 ++ bodies.map Except.ok, sp⟩,
           strs.map OwnedMessage.text ++ [OwnedMessage.close],
           ExitReason.stopped false⟩ := by
  intro strs
  induction strs with
  | nil =>
    intro bodies req0 sp hlen hmark hconv
    cases bodies with
    | cons b bs => simp at hlen
    | nil => simp [runLoop, loopIteration, terminationCheck]
  | cons s strs ih =>
    intro bodies req0 sp hlen hmark hconv
    cases bodies with
    | nil => simp at hlen
    | cons b bs =>
      obtain ⟨ctx, hctx⟩ := hconv b (List.mem_cons_self b bs)
      have hms : strContains s "\"contextId\"" = true :=
        hmark s (List.mem_cons_self s strs)
      have hconv1 := conv_marked b.opcode ctx s (strs.map OwnedMessage.text) hms
      simp only [List.map_cons, List.cons_append, runLoop, loopIteration,
        dispatchIncoming, hctx, hconv1, terminationCheck,
        eq_false Nat.zero_ne_one, if_false, List.append_eq]
      rw [ih bs (req0 ++ [Except.ok b]) sp (by simpa using hlen)
        (fun x hx => hmark x (List.mem_cons_of_mem _ hx))
        (fun x hx => hconv x (List.mem_cons_of_mem _ hx))]
      simp

/-- C1 amended: for every sequence of N queued text frames that each
contain the conversational marker substring quote-contextId-quote (true
canned conversational responses, which excludes the "disconnect"/"close"
directives and fire-and-forget-shaped texts) and N conversational inbound
requests, the i-th request is answered with exactly the i-th queued
response, the queue is consumed FIFO from the front down to empty, and the
request log returned by stop() has length N in arrival order. -/
theorem c1_fifo (c : Codec) (strs : List String) (bodies : List MessageBody)
    (hlen : strs.length = bodies.length)
    (hmark : ∀ s ∈ strs, strContains s "\"contextId\"" = true)
    (hconv : ∀ b ∈ bodies, ∃ ctx, b.path = MessagePath.conversation ctx) :
    runLoop c ⟨strs.map OwnedMessage.text, [], false⟩
        (bodies.map (fun b => Tick.mk (some (Except.ok b)) none)
          ++ [Tick.mk none (some false)])
      = ⟨⟨[], bodies.map Except.ok, false⟩,
         strs.map OwnedMessage.text ++ [OwnedMessage.close],
         ExitReason.stopped false⟩
    ∧ (send_terminate_order ⟨some (), bodies.map Except.ok⟩ false).requests.length
        = bodies.length := by
  refine ⟨?_, by simp [send_terminate_order]⟩
  simpa using runLoop_fifo_conversational c strs bodies [] false hlen hmark hconv

/-- C1 witness: one queued marked response and one conversational request;
the request is answered with the queued text, then the stop order yields
the Close frame and the log holds the single request. -/
theorem c1_fifo_witness :
    runLoop trivialCodec
        ⟨["\x7b\"contextId\": 1\x7d"].map OwnedMessage.text, [], false⟩
        ([convBody1].map (fun b => Tick.mk (some (Except.ok b)) none)
          ++ [Tick.mk none (some false)])
      = ⟨⟨[], [convBody1].map Except.ok, false⟩,
         ["\x7b\"contextId\": 1\x7d"].map OwnedMessage.text ++ [OwnedMessage.close],
         ExitReason.stopped false⟩
    ∧ (send_terminate_order ⟨some (), [convBody1].map Except.ok⟩ false).requests.length
        = [convBody1].length :=
  c1_fifo trivialCodec ["\x7b\"contextId\": 1\x7d"] [convBody1] (by decide)
    (by decide)
    (fun b hb => by
      rw [List.mem_singleton] at hb
      subst hb
      exact ⟨1, rfl⟩)

end MockWS
